import Mathlib

/-!
Verification model of the U校园 userscript (version 19.0, `src/unnamed/part_000`).

The script is a browser automation loop.  We shallowly embed the parts the
claims are about: the answering engine (`doAnswer`, `getPageContextAndAnswers`),
the task sequencer (`main`), and the vocabulary/video handlers.  DOM reads are
modelled as explicit structures holding what the CSS-selector probes would
return; DOM writes and clicks are recorded as an `Action` trace.  JS numbers
are modelled as `ℚ` where fractional values occur (video durations); JS
strings as `String`.
-/

namespace UCampus

/-! ### Characters and JS string primitives -/

/-- An ASCII uppercase letter, the `[A-Z]` character class. -/
def isUpper (c : Char) : Bool := 'A' ≤ c && c ≤ 'Z'

/-- The JS `\s` character class restricted to its ASCII members
(space, tab, newline, vertical tab, form feed, carriage return). -/
def isJsSpace (c : Char) : Bool :=
  c = ' ' || c = '\t' || c = '\n' || c = '\x0b' || c = '\x0c' || c = '\r'

/-- JS `String.prototype.trim` on a character list. -/
def jsTrim (l : List Char) : List Char :=
  ((l.dropWhile isJsSpace).reverse.dropWhile isJsSpace).reverse

/-- JS `String.prototype.trim`. -/
def jsTrimStr (s : String) : String := (jsTrim s.data).asString

/-- Recognizer for the script's choice-answer regex `^[A-Z](?:\s*[A-Z])*$`
(line 231 of the script).  A string matches exactly when it is nonempty,
consists only of uppercase letters and whitespace, and starts and ends with
an uppercase letter. -/
def matchesChoicePattern (s : String) : Bool :=
  (match s.data.head? with | some c => isUpper c | none => false) &&
  (match s.data.getLast? with | some c => isUpper c | none => false) &&
  s.data.all (fun c => isUpper c || isJsSpace c)

/-- `answers.trim().replace(/\s+/g, '')` (line 232): the letters of a
choice answer with all whitespace removed. -/
def answerLetters (s : String) : List Char :=
  (jsTrim s.data).filter (fun c => !isJsSpace c)

/-- The closing-paren-and-whitespace tail of the ordinal regex: consume one
closing paren if present, then any whitespace. -/
def stripParen (l2 : List Char) : List Char :=
  (if l2.head? = some ')' then l2.tail else l2).dropWhile isJsSpace

/-- The optional-dot tail of the ordinal regex: consume one dot if present,
then `stripParen`. -/
def stripAfterDigits (l1 : List Char) : List Char :=
  stripParen (if l1.head? = some '.' then l1.tail else l1)

/-- `line.replace(/^\d+\.?\)?\s*/, '')` (lines 242 and 253): strip a
leading run of digits, an optional dot, an optional closing paren, and
any following whitespace.  The regex matches only when the line starts
with a digit; otherwise the line is unchanged. -/
def stripOrdinal (l : List Char) : List Char :=
  match l with
  | [] => []
  | c :: _ =>
    if c.isDigit then stripAfterDigits (l.dropWhile Char.isDigit)
    else l

/-- JS `String.prototype.split('\n')` on a character list. -/
def splitLines (l : List Char) : List (List Char) :=
  match l with
  | [] => [[]]
  | c :: rest =>
    let r := splitLines rest
    if c = '\n' then [] :: r
    else
      match r with
      | h :: t => (c :: h) :: t
      | [] => [[c]]

/-- `answers.split('\n').map(line => line.replace(/^\d+\.?\)?\s*/, '').trim()).filter(Boolean)`
(lines 242 and 253). -/
def processAnswerLines (s : String) : List String :=
  ((splitLines s.data).map (fun line => (jsTrim (stripOrdinal line)).asString)).filter
    (fun x => !x.isEmpty)

/-- Bool-valued list-prefix test, used to model JS `String.prototype.includes`. -/
def isPrefixB : List Char → List Char → Bool
  | [], _ => true
  | _ :: _, [] => false
  | a :: as, b :: bs => a = b && isPrefixB as bs

/-- Bool-valued list-infix test. -/
def isInfixB (sub : List Char) : List Char → Bool
  | [] => sub.isEmpty
  | c :: rest => isPrefixB sub (c :: rest) || isInfixB sub rest

/-- JS `s.includes(sub)` (used as `mainTaskContent.includes(t.id)`,
lines 208 and 331). -/
def strIncludes (s sub : String) : Bool := isInfixB sub.data s.data

/-- `mainTaskContent.match(/(\d+)-\d+/)` (line 197): scan for the leftmost
occurrence of digits, a dash, and a digit, returning capture group 1
(the digit run before the dash). -/
def findUnitId : List Char → Option String
  | [] => none
  | c :: rest =>
    if c.isDigit then
      match (c :: rest).dropWhile Char.isDigit with
      | '-' :: d :: _ =>
        if d.isDigit then some ((c :: rest).takeWhile Char.isDigit).asString
        else findUnitId rest
      | _ => findUnitId rest
    else findUnitId rest

/-- First-match association-list lookup, modelling JS object key access. -/
def lookupStr {β : Type} : List (String × β) → String → Option β
  | [], _ => none
  | (k, v) :: rest, key => if k = key then some v else lookupStr rest key

/-! ### Data model

DOM structures hold what the script's CSS-selector probes would return on
the live page.  The question bank is the nested JSON object
`unit → task → sub-task → answer string` (its values are strings, so the
script's `typeof answers === 'string'` tests are identically true here). -/

/-- One `.option` node of a choice question: its `.caption` child's trimmed
text (absent when there is no caption node) and whether it carries the
`selected` class. -/
structure ChoiceOption where
  caption : Option String
  selected : Bool
deriving DecidableEq

/-- One `.question-common-abs-reply` / `.question-common-abs-banked-cloze`
block (line 226). -/
structure ChoiceQuestion where
  options : List ChoiceOption
deriving DecidableEq

/-- The answer-area DOM: choice-question blocks, the values of
`textarea.question-inputbox-input` elements, and the values of
`.fe-scoop .comp-abs-input input` elements (lines 226-228). -/
structure PageDom where
  choiceQuestions : List ChoiceQuestion
  textInputs : List String
  fillInBlanks : List String
deriving DecidableEq

/-- The menu/header DOM read by `getPageContextAndAnswers` (lines 194-205):
the `.pc-menu-node-name` element with its `title` attribute, the fallback
`.node-name` text, the active sub-task tab with its `title` attribute and
text, and the `.question-common-abs-test-part-name` text. -/
structure MenuDom where
  menuNodePresent : Bool
  menuNodeTitle : Option String
  nodeNameText : Option String
  activeTabPresent : Bool
  activeTabTitle : Option String
  activeTabText : String
  testPartName : Option String
deriving DecidableEq

/-- A sub-task row of a composite `UNIT_STRUCTURE` entry; `needsSubmit` is
`false` where the source object omits the field (JS `undefined` is falsy). -/
structure SubTaskConfig where
  name : String
  method : String
  needsSubmit : Bool
deriving DecidableEq

/-- One `UNIT_STRUCTURE` entry (lines 31-57).  `method` is `none` and
`children` is `some _` for composite entries and vice versa for standalone
ones; `needsSubmit` is `false` everywhere since no top-level entry sets it
(JS `undefined` is falsy at line 340). -/
structure TaskMapEntry where
  id : String
  name : String
  typ : String
  method : Option String
  children : Option (List SubTaskConfig)
  needsSubmit : Bool
deriving DecidableEq

/-- The hand-authored task map `COURSE_DATA.UNIT_STRUCTURE` (lines 31-57). -/
def UNIT_STRUCTURE : List TaskMapEntry :=
  [ ⟨"1-1", "Setting the scene", "standalone", some "video", none, false⟩,
    ⟨"1-2", "iExplore 1: Learning before class", "composite", none,
      some [⟨"Reading in detail", "skip", false⟩,
            ⟨"Vocabulary", "vocabulary", false⟩,
            ⟨"Reading comprehension", "quiz", true⟩,
            ⟨"Dealing with vocabulary", "quiz", true⟩], false⟩,
    ⟨"1-3", "iExplore 1: Reviewing after class", "composite", none,
      some [⟨"Gems of the language", "video", false⟩,
            ⟨"Repeating after me", "skip", false⟩,
            ⟨"Application", "quiz", true⟩], false⟩,
    ⟨"1-4", "iExplore 2: Learning before class", "composite", none,
      some [⟨"Reading in detail", "skip", false⟩,
            ⟨"Vocabulary", "vocabulary", false⟩,
            ⟨"Reading comprehension", "quiz", true⟩,
            ⟨"Dealing with vocabulary", "quiz", true⟩], false⟩,
    ⟨"1-5", "iExplore 2: Reviewing after class", "composite", none,
      some [⟨"Repeating after me", "skip", false⟩], false⟩,
    ⟨"1-6", "Unit project", "standalone", some "skip", none, false⟩,
    ⟨"1-7", "Unit test", "composite", none,
      some [⟨"Part I", "quiz", true⟩,
            ⟨"Part II", "quiz", true⟩,
            ⟨"Part III", "quiz", true⟩], false⟩ ]

/-- `COURSE_DATA.QUESTION_BANK`: unit → main task → sub-task → answer. -/
abbrev Bank := List (String × List (String × List (String × String)))

/-- `QUESTION_BANK[unitKey]?.[mainTaskKey]?.[activeSubTaskName]` (line 210). -/
def bankLookup (bank : Bank) (unitKey mainKey subKey : String) : Option String :=
  match lookupStr bank unitKey with
  | none => none
  | some m =>
    match lookupStr m mainKey with
    | none => none
    | some m2 => lookupStr m2 subKey

/-! ### Page context resolution (`getPageContextAndAnswers`, lines 193-214) -/

/-- Lines 194-195: `mainTaskElement ? mainTaskElement.getAttribute('title')
: querySelector('...')?.textContent`. -/
def currentMainTaskContent (menu : MenuDom) : Option String :=
  if menu.menuNodePresent then menu.menuNodeTitle else menu.nodeNameText

/-- Lines 201-206: resolve the active sub-task name from the active tab's
`title` attribute, else its text, else the trimmed test-part-name text,
defaulting to `"Part I"` when all of these are missing or empty
(JS `""` and `null` are both falsy). -/
def resolveSubTaskName (menu : MenuDom) : String :=
  let fromTab : String :=
    if menu.activeTabPresent then
      match menu.activeTabTitle with
      | some t => if t.isEmpty then menu.activeTabText else t
      | none => menu.activeTabText
    else ""
  let s1 : String :=
    if fromTab.isEmpty then
      match menu.testPartName with
      | some p => jsTrimStr p
      | none => fromTab
    else fromTab
  if s1.isEmpty then "Part I" else s1

/-- Lines 196-206 bundled: the main-task content, the `"Unit <n>"` bank key
and the resolved sub-task name, or `none` when the label is unreadable/empty
or carries no `<digits>-<digits>` unit id. -/
def resolveContext (menu : MenuDom) : Option (String × String × String) :=
  match currentMainTaskContent menu with
  | none => none
  | some mtc =>
    if mtc.isEmpty then none
    else
      match findUnitId mtc.data with
      | none => none
      | some uid => some (mtc, "Unit " ++ uid, resolveSubTaskName menu)

/-- Lines 208-209: the bank key for the main task is the matched
`UNIT_STRUCTURE` entry's name, else the raw label. -/
def resolveMainTaskKey (mtc : String) : String :=
  match UNIT_STRUCTURE.find? (fun t => strIncludes mtc t.id) with
  | some e => e.name
  | none => mtc

/-- Result of `getPageContextAndAnswers`: `null`, the string `'answered'`,
or the `{answers, mainTaskContent, activeSubTaskName}` object. -/
inductive ContextResult
  | noCtx
  | answered
  | found (answers mainTaskContent activeSubTaskName : String)
deriving DecidableEq

/-- `getPageContextAndAnswers` (lines 193-214).  `lastAnsweredSubTask` is the
dedup key; an entry missing from the bank, or an empty-string answer
(falsy at line 211), yields `null`. -/
def getPageContextAndAnswers (bank : Bank) (lastAnsweredSubTask : String)
    (menu : MenuDom) : ContextResult :=
  match resolveContext menu with
  | none => .noCtx
  | some (mtc, unitKey, sub) =>
    if lastAnsweredSubTask = mtc ++ "-" ++ sub then .answered
    else
      match bankLookup bank unitKey (resolveMainTaskKey mtc) sub with
      | none => .noCtx
      | some a => if a.isEmpty then .noCtx else .found a mtc sub

/-! ### The answering engine (`doAnswer`, lines 216-268) -/

/-- Observable side effects of the script, in program order. -/
inductive Action
  | clickOption (question opt : Nat)
  | setInput (idx : Nat) (value : String)
  | inputEvent (idx : Nat)
  | setBlank (idx : Nat) (value : String)
  | blankEvent (idx : Nat)
  | clickTab (name : String)
  | runHandler (method name : String)
  | warnMissingTab (name : String)
  | submitSequence
  | warnStuck
  | warnUnmapped
  | logFatal
  | clickNextMainTask
  | logNavError
  | logAllDone
deriving DecidableEq

/-- Line 236's click condition: the option's caption text, trimmed, equals
the single letter, and the option is not already selected. -/
def optionMatches (o : ChoiceOption) (letter : Char) : Bool :=
  (match o.caption with
   | some t => jsTrimStr t = String.singleton letter
   | none => false) && !o.selected

/-- The `for (const option of options) { if ... break }` search (lines
235-239): index of the first matching option, if any. -/
def findFirstIndex {α : Type} (p : α → Bool) : List α → Option Nat
  | [] => none
  | a :: l => if p a then some 0 else (findFirstIndex p l).map (· + 1)

/-- The choice-branch loop (lines 233-240): for the i-th question block and
the i-th answer letter (up to the shorter of the two lists), click the first
matching unselected option. -/
def choiceClicks : List ChoiceQuestion → List Char → Nat → List Action
  | q :: qs, c :: cs, i =>
    (match findFirstIndex (fun o => optionMatches o c) q.options with
     | some j => [Action.clickOption i j]
     | none => []) ++ choiceClicks qs cs (i + 1)
  | _, _, _ => []

/-- The free-text loops (lines 243-251 and 254-262): assign the i-th answer
line to the i-th input when that input's value is empty (JS `!input.value`),
recording a set-value and a synthetic input event for each write.  Returns
the new values and the recorded actions. -/
def fillLoop (mkSet : Nat → String → Action) (mkEvent : Nat → Action) :
    List String → List String → Nat → List String × List Action
  | [], _, _ => ([], [])
  | v :: vs, [], _ => (v :: vs, [])
  | v :: vs, l :: ls, i =>
    if v.isEmpty then
      (l :: (fillLoop mkSet mkEvent vs ls (i + 1)).1,
       mkSet i l :: mkEvent i :: (fillLoop mkSet mkEvent vs ls (i + 1)).2)
    else
      (v :: (fillLoop mkSet mkEvent vs ls (i + 1)).1,
       (fillLoop mkSet mkEvent vs ls (i + 1)).2)

/-- Result of one `doAnswer` invocation: the page DOM after the writes, the
updated dedup key, and the recorded actions. -/
structure DoAnswerResult where
  dom : PageDom
  lastAnsweredSubTask : String
  actions : List Action
deriving DecidableEq

/-- `doAnswer` (lines 216-268).  With an empty bank the retry wait elapses
and the function gives up (the bank is static in this model).  The dedup key
is updated exactly when some click or write happened (`answered`,
lines 264-267). -/
def doAnswer (bank : Bank) (last : String) (menu : MenuDom) (dom : PageDom) :
    DoAnswerResult :=
  if bank.isEmpty then ⟨dom, last, []⟩
  else
    match getPageContextAndAnswers bank last menu with
    | .noCtx => ⟨dom, last, []⟩
    | .answered => ⟨dom, last, []⟩
    | .found a mtc sub =>
      if dom.choiceQuestions ≠ [] ∧ matchesChoicePattern (jsTrimStr a) = true then
        ⟨dom,
         if choiceClicks dom.choiceQuestions (answerLetters a) 0 = [] then last
         else mtc ++ "-" ++ sub,
         choiceClicks dom.choiceQuestions (answerLetters a) 0⟩
      else if dom.textInputs ≠ [] then
        ⟨{ dom with textInputs :=
             (fillLoop Action.setInput Action.inputEvent dom.textInputs
               (processAnswerLines a) 0).1 },
         if (fillLoop Action.setInput Action.inputEvent dom.textInputs
               (processAnswerLines a) 0).2 = [] then last
         else mtc ++ "-" ++ sub,
         (fillLoop Action.setInput Action.inputEvent dom.textInputs
           (processAnswerLines a) 0).2⟩
      else if dom.fillInBlanks ≠ [] then
        ⟨{ dom with fillInBlanks :=
             (fillLoop Action.setBlank Action.blankEvent dom.fillInBlanks
               (processAnswerLines a) 0).1 },
         if (fillLoop Action.setBlank Action.blankEvent dom.fillInBlanks
               (processAnswerLines a) 0).2 = [] then last
         else mtc ++ "-" ++ sub,
         (fillLoop Action.setBlank Action.blankEvent dom.fillInBlanks
           (processAnswerLines a) 0).2⟩
      else ⟨dom, last, []⟩

/-! ### The task sequencer (`main`, lines 311-382) and navigation -/

/-- The DOM reads of `main` and `navigateToNextMainTask`: the current menu
node with its `title` attribute, `location.href`, the sub-task tab elements'
`title` attributes (line 344), whether the current main task is located in
the slider-menu list, and whether a next main task exists (lines 439-444). -/
structure MainPage where
  menuNodePresent : Bool
  menuNodeTitle : Option String
  href : String
  subTaskTabTitles : List (Option String)
  menuFound : Bool
  nextTaskExists : Bool
deriving DecidableEq

/-- The script's mutable run state: the two flags, the in-memory dedup key
and the two GM-persisted strings (with `''` for a deleted/absent value). -/
structure MainState where
  isAutomationRunning : Bool
  isProcessing : Bool
  lastAnsweredSubTask : String
  lastProcessedTaskName : String
  lastUrl : String
deriving DecidableEq

/-- `toggleAutomation` (lines 172-190), state part only: flip the run flag;
when stopping, also clear the reentrancy flag; when starting, delete the
persisted task name and reset the dedup key.  (Button styling, observers and
the re-arm timer are presentation, not modelled.) -/
def toggleAutomation (st : MainState) : MainState :=
  if st.isAutomationRunning then
    { st with isAutomationRunning := false, isProcessing := false }
  else
    { st with isAutomationRunning := true, lastProcessedTaskName := "",
              lastAnsweredSubTask := "" }

/-- The `finally` block of `main` (line 380). -/
def clearProcessing (st : MainState) : MainState := { st with isProcessing := false }

/-- `navigateToNextMainTask` (lines 436-454): fail with a log when the
current task cannot be located, click the next sibling when one exists,
otherwise declare the course finished and toggle automation off. -/
def navigateToNextMainTask (page : MainPage) (st : MainState) :
    MainState × List Action :=
  if !page.menuFound then (st, [Action.logNavError])
  else if page.nextTaskExists then (st, [Action.clickNextMainTask])
  else (toggleAutomation st, [Action.logAllDone])

/-- `main`'s read of the current label (line 318):
`querySelector('...')?.getAttribute('title')`. -/
def readMainLabel (page : MainPage) : Option String :=
  if page.menuNodePresent then page.menuNodeTitle else none

/-- `t = some n`, the tab-title match `el.getAttribute('title') === name`
(line 349). -/
def hasTitle (t : Option String) (n : String) : Bool := decide (t = some n)

/-- The composite sub-task loop (lines 346-365): for each declared child in
authored order, when its tab is found click it and run its handler (and the
submit sequence when the child requires it); when the tab is missing, log a
warning and continue with the next child.  Within one synchronous
invocation the run flag cannot change, so the loop's early-exit check on it
never fires and is not modelled. -/
def processChildren (tabs : List (Option String)) : List SubTaskConfig → List Action
  | [] => []
  | c :: rest =>
    match tabs.find? (fun t => hasTitle t c.name) with
    | none => Action.warnMissingTab c.name :: processChildren tabs rest
    | some _ =>
      Action.clickTab c.name :: Action.runHandler c.method c.name ::
        ((if c.needsSubmit then [Action.submitSequence] else []) ++
          processChildren tabs rest)

/-- `main` (lines 311-382).  Handler execution and the submit sequence are
recorded as abstract actions; the only exception modelled is the
unreadable-label `throw` at line 319 (the `catch` logs and calls
`toggleAutomation`, the `finally` clears the reentrancy flag on every
path). -/
def main (page : MainPage) (st : MainState) : MainState × List Action :=
  if st.isProcessing = true ∨ st.isAutomationRunning = false then (st, [])
  else
    match readMainLabel page with
    | none =>
      (clearProcessing (toggleAutomation { st with isProcessing := true }),
       [Action.logFatal])
    | some name =>
      if name.isEmpty then
        (clearProcessing (toggleAutomation { st with isProcessing := true }),
         [Action.logFatal])
      else if name = st.lastProcessedTaskName ∧ page.href = st.lastUrl then
        (clearProcessing
           (navigateToNextMainTask page { st with isProcessing := true }).1,
         Action.warnStuck ::
           (navigateToNextMainTask page { st with isProcessing := true }).2)
      else
        let st2 : MainState :=
          if name ≠ st.lastProcessedTaskName then
            { st with isProcessing := true, lastAnsweredSubTask := "" }
          else { st with isProcessing := true }
        match UNIT_STRUCTURE.find? (fun t => strIncludes name t.id) with
        | none =>
          (clearProcessing (navigateToNextMainTask page st2).1,
           Action.warnUnmapped :: (navigateToNextMainTask page st2).2)
        | some taskData =>
          let bodyActs : List Action :=
            if taskData.typ = "standalone" then
              Action.runHandler (taskData.method.getD "") taskData.name ::
                (if taskData.needsSubmit then [Action.submitSequence] else [])
            else if taskData.typ = "composite" then
              match taskData.children with
              | some cs => processChildren page.subTaskTabTitles cs
              | none => []
            else []
          let st3 : MainState :=
            { st2 with lastProcessedTaskName := name, lastUrl := page.href }
          (clearProcessing (navigateToNextMainTask page st3).1,
           bodyActs ++ Action.submitSequence :: (navigateToNextMainTask page st3).2)

/-! ### The vocabulary handler (`handleVocabularyTask`, lines 295-308) -/

/-- Environment of the flashcard loop: whether the `.vocabulary-wrapper`
exists, and — per iteration, since each `await` yields to the UI thread —
the observed run flag and whether an enabled next button is present. -/
structure VocabEnv where
  wrapperPresent : Bool
  running : Nat → Bool
  nextButton : Nat → Bool

/-- The `while (maxClicks-- > 0)` loop (lines 299-305), fuel-counted:
returns the handler result and the number of clicks performed from
iteration `k` on. -/
def vocabLoop (env : VocabEnv) : Nat → Nat → Bool × Nat
  | 0, _ => (true, 0)
  | fuel + 1, k =>
    if env.running k = false then (false, 0)
    else if env.nextButton k = false then (true, 0)
    else
      ((vocabLoop env fuel (k + 1)).1, (vocabLoop env fuel (k + 1)).2 + 1)

/-- `handleVocabularyTask` (lines 295-308): vacuous success without the
wrapper, otherwise at most 50 click iterations. -/
def handleVocabularyTask (env : VocabEnv) : Bool × Nat :=
  if env.wrapperPresent = false then (true, 0)
  else vocabLoop env 50 0

/-! ### The video handler (`handleVideoTask`, lines 270-287) -/

/-- A `<video>` element: its duration (a JS number, modelled as `ℚ`), its
`readyState`, and whether a `canplay` event fires before the 5000 ms
ceiling timeout. -/
structure VideoEl where
  duration : ℚ
  readyState : Nat
  canplayFires : Bool
deriving DecidableEq

/-- Outcome of `handleVideoTask`: the resolved value, whether the element
was muted, the seek target if a seek happened, and whether `play()` was
invoked (a rejected play is caught and ignored, line 279). -/
structure VideoOutcome where
  result : Bool
  muted : Bool
  seeked : Option ℚ
  playStarted : Bool
deriving DecidableEq

/-- `handleVideoTask` (lines 270-287): no video resolves `true` at once;
otherwise the video is muted, and when it already reports `readyState >= 2`
or a `canplay` event arrives before the ceiling, it is seeked to
`duration - 1.5` (to `0` when `duration <= 2`) and played; when neither
happens the 5000 ms timeout resolves `true` anyway. -/
def handleVideoTask (video : Option VideoEl) : VideoOutcome :=
  match video with
  | none => ⟨true, false, none, false⟩
  | some v =>
    if 2 ≤ v.readyState ∨ v.canplayFires = true then
      ⟨true, true, some (if 2 < v.duration then v.duration - 3/2 else 0), true⟩
    else ⟨true, true, none, false⟩

example : matchesChoicePattern "A B A B A" = true := by decide
example : matchesChoicePattern "A" = true := by decide
example : matchesChoicePattern "a" = false := by decide
example : matchesChoicePattern "1. foo" = false := by decide
example : processAnswerLines "1. foo\n2) bar" = ["foo", "bar"] := by decide
example : findUnitId "1-2 iExplore".data = some "1" := by decide
example : strIncludes "1-2 iExplore" "1-2" = true := by decide

/-! ### Helper lemmas -/

/-- An action of the normal task-processing path (handler runs, clicks,
writes, submits), as opposed to logging and navigation. -/
def isProcessingAction : Action → Bool
  | .clickOption _ _ => true
  | .setInput _ _ => true
  | .inputEvent _ => true
  | .setBlank _ _ => true
  | .blankEvent _ => true
  | .clickTab _ => true
  | .runHandler _ _ => true
  | .submitSequence => true
  | _ => false

theorem vocabLoop_clicks_le (env : VocabEnv) :
    ∀ fuel k, (vocabLoop env fuel k).2 ≤ fuel := by
  intro fuel
  induction fuel with
  | zero => intro k; simp [vocabLoop]
  | succ n ih =>
    intro k
    by_cases h1 : env.running k = false
    · simp [vocabLoop, h1]
    · by_cases h2 : env.nextButton k = false
      · simp [vocabLoop, h1, h2]
      · simp only [vocabLoop, if_neg h1, if_neg h2]
        exact Nat.succ_le_succ (ih (k + 1))

theorem vocabLoop_exhausts (env : VocabEnv)
    (hr : ∀ k, env.running k = true) (hb : ∀ k, env.nextButton k = true) :
    ∀ fuel k, vocabLoop env fuel k = (true, fuel) := by
  intro fuel
  induction fuel with
  | zero => intro k; rfl
  | succ n ih =>
    intro k
    simp [vocabLoop, hr k, hb k, ih (k + 1)]

theorem vocabLoop_button_stop (env : VocabEnv) :
    ∀ (j fuel k : Nat), j < fuel →
      (∀ i, i < j + 1 → env.running (k + i) = true) →
      (∀ i, i < j → env.nextButton (k + i) = true) →
      env.nextButton (k + j) = false →
      vocabLoop env fuel k = (true, j) := by
  intro j
  induction j with
  | zero =>
    intro fuel k hj hr _ hstop
    obtain ⟨m, rfl⟩ : ∃ m, fuel = m + 1 := ⟨fuel - 1, by omega⟩
    have h0 : env.running k = true := by simpa using hr 0 (by omega)
    have h1 : env.nextButton k = false := by simpa using hstop
    simp [vocabLoop, h0, h1]
  | succ n ih =>
    intro fuel k hj hr hb hstop
    obtain ⟨m, rfl⟩ : ∃ m, fuel = m + 1 := ⟨fuel - 1, by omega⟩
    have h0 : env.running k = true := by simpa using hr 0 (by omega)
    have hb0 : env.nextButton k = true := by simpa using hb 0 (by omega)
    have hrec := ih m (k + 1) (by omega)
      (fun i hi => by
        have := hr (i + 1) (by omega)
        rwa [show k + (i + 1) = (k + 1) + i by omega] at this)
      (fun i hi => by
        have := hb (i + 1) (by omega)
        rwa [show k + (i + 1) = (k + 1) + i by omega] at this)
      (by rwa [show k + (n + 1) = (k + 1) + n by omega] at hstop)
    simp [vocabLoop, h0, hb0, hrec]

theorem vocabLoop_flag_stop (env : VocabEnv) :
    ∀ (j fuel k : Nat), j < fuel →
      (∀ i, i < j → env.running (k + i) = true) →
      (∀ i, i < j → env.nextButton (k + i) = true) →
      env.running (k + j) = false →
      vocabLoop env fuel k = (false, j) := by
  intro j
  induction j with
  | zero =>
    intro fuel k hj _ _ hstop
    obtain ⟨m, rfl⟩ : ∃ m, fuel = m + 1 := ⟨fuel - 1, by omega⟩
    have h0 : env.running k = false := by simpa using hstop
    simp [vocabLoop, h0]
  | succ n ih =>
    intro fuel k hj hr hb hstop
    obtain ⟨m, rfl⟩ : ∃ m, fuel = m + 1 := ⟨fuel - 1, by omega⟩
    have h0 : env.running k = true := by simpa using hr 0 (by omega)
    have hb0 : env.nextButton k = true := by simpa using hb 0 (by omega)
    have hrec := ih m (k + 1) (by omega)
      (fun i hi => by
        have := hr (i + 1) (by omega)
        rwa [show k + (i + 1) = (k + 1) + i by omega] at this)
      (fun i hi => by
        have := hb (i + 1) (by omega)
        rwa [show k + (i + 1) = (k + 1) + i by omega] at this)
      (by rwa [show k + (n + 1) = (k + 1) + n by omega] at hstop)
    simp [vocabLoop, h0, hb0, hrec]

/-- An action of the free-text filling branches. -/
def isFreeTextAction : Action → Bool
  | .setInput _ _ => true
  | .inputEvent _ => true
  | .setBlank _ _ => true
  | .blankEvent _ => true
  | _ => false

theorem found_inversion (bank : Bank) (last : String) (menu : MenuDom)
    (a mtc sub : String)
    (h : getPageContextAndAnswers bank last menu = .found a mtc sub) :
    ∃ uk, resolveContext menu = some (mtc, uk, sub)
      ∧ last ≠ mtc ++ "-" ++ sub
      ∧ bankLookup bank uk (resolveMainTaskKey mtc) sub = some a
      ∧ a.isEmpty = false := by
  cases hr : resolveContext menu with
  | none =>
    exfalso
    unfold getPageContextAndAnswers at h
    rw [hr] at h
    exact absurd h (by simp)
  | some triple =>
    obtain ⟨mtc0, uk, sub0⟩ := triple
    unfold getPageContextAndAnswers at h
    rw [hr] at h
    simp only [] at h
    by_cases hd : last = mtc0 ++ "-" ++ sub0
    · rw [if_pos hd] at h
      exact absurd h (by simp)
    · rw [if_neg hd] at h
      cases hb : bankLookup bank uk (resolveMainTaskKey mtc0) sub0 with
      | none =>
        rw [hb] at h
        exact absurd h (by simp)
      | some a0 =>
        rw [hb] at h
        simp only [] at h
        by_cases he : a0.isEmpty
        · rw [if_pos he] at h
          exact absurd h (by simp)
        · rw [if_neg he] at h
          injection h with h1 h2 h3
          subst h1
          subst h2
          subst h3
          exact ⟨uk, rfl, hd, hb, by simp [he]⟩

theorem context_answered_after_key (bank : Bank) (last : String) (menu : MenuDom)
    (a mtc sub : String)
    (h : getPageContextAndAnswers bank last menu = .found a mtc sub) :
    getPageContextAndAnswers bank (mtc ++ "-" ++ sub) menu = .answered := by
  obtain ⟨uk, h1, _, _, _⟩ := found_inversion bank last menu a mtc sub h
  unfold getPageContextAndAnswers
  rw [h1]
  simp

theorem bank_nonempty_of_found (bank : Bank) (last : String) (menu : MenuDom)
    (a mtc sub : String)
    (h : getPageContextAndAnswers bank last menu = .found a mtc sub) :
    bank.isEmpty = false := by
  cases bank with
  | cons _ _ => rfl
  | nil =>
    exfalso
    obtain ⟨uk, _, _, h3, _⟩ := found_inversion [] last menu a mtc sub h
    exact absurd h3 (by simp [bankLookup, lookupStr])

theorem fillLoop_actions_nil (mkS : Nat → String → Action) (mkE : Nat → Action) :
    ∀ (vs ls : List String) (i : Nat),
      (fillLoop mkS mkE vs ls i).2 = [] → (fillLoop mkS mkE vs ls i).1 = vs := by
  intro vs
  induction vs with
  | nil =>
    intro ls i _
    cases ls <;> rfl
  | cons v vs ih =>
    intro ls i h
    cases ls with
    | nil => rfl
    | cons l ls =>
      by_cases hv : v.isEmpty
      · simp [fillLoop, hv] at h
      · simp only [fillLoop, if_neg hv] at h ⊢
        rw [ih ls (i + 1) h]

theorem fillLoop_get_empty (mkS : Nat → String → Action) (mkE : Nat → Action) :
    ∀ (vs ls : List String) (i k : Nat) (l : String),
      vs.get? k = some "" → ls.get? k = some l →
      (fillLoop mkS mkE vs ls i).1.get? k = some l
      ∧ mkS (i + k) l ∈ (fillLoop mkS mkE vs ls i).2
      ∧ mkE (i + k) ∈ (fillLoop mkS mkE vs ls i).2 := by
  intro vs
  induction vs with
  | nil =>
    intro ls i k l hv _
    simp at hv
  | cons v vs ih =>
    intro ls i k l hv hl
    cases ls with
    | nil => simp at hl
    | cons l0 ls =>
      cases k with
      | zero =>
        simp only [List.get?] at hv hl
        have hv' : v = "" := by injection hv
        have hl' : l0 = l := by injection hl
        subst hv'
        subst hl'
        have hempty : ("" : String).isEmpty = true := by decide
        simp [fillLoop, hempty]
      | succ k =>
        simp only [List.get?] at hv hl
        have hrec := ih ls (i + 1) k l hv hl
        have hik : i + (k + 1) = (i + 1) + k := by omega
        by_cases hve : v.isEmpty
        · simp only [fillLoop, if_pos hve, List.get?]
          exact ⟨hrec.1,
            by rw [hik]; exact List.mem_cons_of_mem _ (List.mem_cons_of_mem _ hrec.2.1),
            by rw [hik]; exact List.mem_cons_of_mem _ (List.mem_cons_of_mem _ hrec.2.2)⟩
        · simp only [fillLoop, if_neg hve, List.get?]
          exact ⟨hrec.1, by rw [hik]; exact hrec.2.1, by rw [hik]; exact hrec.2.2⟩

theorem fillLoop_get_nonempty (mkS : Nat → String → Action) (mkE : Nat → Action) :
    ∀ (vs ls : List String) (i k : Nat) (v : String),
      vs.get? k = some v → v.isEmpty = false →
      (fillLoop mkS mkE vs ls i).1.get? k = some v := by
  intro vs
  induction vs with
  | nil =>
    intro ls i k v hv _
    simp at hv
  | cons v0 vs ih =>
    intro ls i k v hv hne
    cases ls with
    | nil => exact hv
    | cons l0 ls =>
      cases k with
      | zero =>
        simp only [List.get?] at hv
        have hv' : v0 = v := by injection hv
        subst hv'
        simp only [fillLoop, if_neg (by simp [hne] : ¬ (v0.isEmpty = true)), List.get?]
      | succ k =>
        simp only [List.get?] at hv
        by_cases hve : v0.isEmpty
        · simp only [fillLoop, if_pos hve, List.get?]
          exact ih ls (i + 1) k v hv hne
        · simp only [fillLoop, if_neg hve, List.get?]
          exact ih ls (i + 1) k v hv hne

theorem findFirstIndex_some {α : Type} (p : α → Bool) :
    ∀ (l : List α) (j : Nat), findFirstIndex p l = some j →
      ∃ x, l.get? j = some x ∧ p x = true := by
  intro l
  induction l with
  | nil =>
    intro j h
    simp [findFirstIndex] at h
  | cons a l ih =>
    intro j h
    by_cases hp : p a
    · simp [findFirstIndex, hp] at h
      subst h
      exact ⟨a, rfl, hp⟩
    · simp only [findFirstIndex, if_neg (by simp [hp] : ¬ (p a = true))] at h
      cases hf : findFirstIndex p l with
      | none =>
        rw [hf] at h
        simp at h
      | some j0 =>
        rw [hf] at h
        simp at h
        subst h
        obtain ⟨x, hx, hpx⟩ := ih j0 hf
        exact ⟨x, by simpa using hx, hpx⟩

theorem choiceClicks_all_clicks :
    ∀ (qs : List ChoiceQuestion) (cs : List Char) (i : Nat) (a : Action),
      a ∈ choiceClicks qs cs i → ∃ q j, a = Action.clickOption q j := by
  intro qs
  induction qs with
  | nil =>
    intro cs i a h
    cases cs <;> simp [choiceClicks] at h
  | cons q qs ih =>
    intro cs i a h
    cases cs with
    | nil => simp [choiceClicks] at h
    | cons c cs =>
      simp only [choiceClicks] at h
      cases hf : findFirstIndex (fun o => optionMatches o c) q.options with
      | none =>
        rw [hf] at h
        simp at h
        exact ih cs (i + 1) a h
      | some j =>
        rw [hf] at h
        simp at h
        rcases h with rfl | h
        · exact ⟨i, j, rfl⟩
        · exact ih cs (i + 1) a h

theorem clickOption_mem_choiceClicks :
    ∀ (qs : List ChoiceQuestion) (cs : List Char) (i0 q j : Nat),
      Action.clickOption q j ∈ choiceClicks qs cs i0 →
      ∃ k qq c, q = i0 + k ∧ qs.get? k = some qq ∧ cs.get? k = some c ∧
        findFirstIndex (fun o => optionMatches o c) qq.options = some j := by
  intro qs
  induction qs with
  | nil =>
    intro cs i0 q j h
    cases cs <;> simp [choiceClicks] at h
  | cons qq qs ih =>
    intro cs i0 q j h
    cases cs with
    | nil => simp [choiceClicks] at h
    | cons c cs =>
      simp only [choiceClicks] at h
      cases hf : findFirstIndex (fun o => optionMatches o c) qq.options with
      | none =>
        rw [hf] at h
        simp at h
        obtain ⟨k, qq2, c2, hq, h1, h2, h3⟩ := ih cs (i0 + 1) q j h
        exact ⟨k + 1, qq2, c2, by omega, by simpa using h1, by simpa using h2, h3⟩
      | some j0 =>
        rw [hf] at h
        simp at h
        rcases h with ⟨rfl, rfl⟩ | h
        · exact ⟨0, qq, c, by omega, rfl, rfl, hf⟩
        · obtain ⟨k, qq2, c2, hq, h1, h2, h3⟩ := ih cs (i0 + 1) q j h
          exact ⟨k + 1, qq2, c2, by omega, by simpa using h1, by simpa using h2, h3⟩

theorem dropWhile_append_of_all {α : Type} (p : α → Bool) :
    ∀ (xs ys : List α), xs.all p = true →
      (xs ++ ys).dropWhile p = ys.dropWhile p := by
  intro xs
  induction xs with
  | nil => intro ys _; rfl
  | cons x xs ih =>
    intro ys h
    simp only [List.all_cons, Bool.and_eq_true] at h
    simp only [List.cons_append, List.dropWhile_cons, h.1, if_true]
    exact ih ys h.2

theorem stripOrdinal_dot (ds rest : List Char) (h1 : ds ≠ [])
    (h2 : ds.all Char.isDigit = true) (h3 : rest.head? ≠ some ')') :
    stripOrdinal (ds ++ '.' :: rest) = rest.dropWhile isJsSpace := by
  cases ds with
  | nil => exact absurd rfl h1
  | cons d ds =>
    simp only [List.all_cons, Bool.and_eq_true] at h2
    have hdw : ((d :: ds) ++ '.' :: rest).dropWhile Char.isDigit = '.' :: rest := by
      rw [dropWhile_append_of_all Char.isDigit (d :: ds) ('.' :: rest)
        (by simp [h2.1, h2.2])]
      simp [List.dropWhile_cons]
    simp only [List.cons_append, stripOrdinal, if_pos h2.1]
    rw [show d :: (ds ++ '.' :: rest) = (d :: ds) ++ '.' :: rest from rfl, hdw]
    simp [stripAfterDigits, stripParen, h3]

theorem stripOrdinal_paren (ds rest : List Char) (h1 : ds ≠ [])
    (h2 : ds.all Char.isDigit = true) :
    stripOrdinal (ds ++ ')' :: rest) = rest.dropWhile isJsSpace := by
  cases ds with
  | nil => exact absurd rfl h1
  | cons d ds =>
    simp only [List.all_cons, Bool.and_eq_true] at h2
    have hdw : ((d :: ds) ++ ')' :: rest).dropWhile Char.isDigit = ')' :: rest := by
      rw [dropWhile_append_of_all Char.isDigit (d :: ds) (')' :: rest)
        (by simp [h2.1, h2.2])]
      simp [List.dropWhile_cons]
    simp only [List.cons_append, stripOrdinal, if_pos h2.1]
    rw [show d :: (ds ++ ')' :: rest) = (d :: ds) ++ ')' :: rest from rfl, hdw]
    simp [stripAfterDigits, stripParen, (by decide : ¬ ((')' : Char) = '.'))]

/-! ### Claim theorems -/

/-- C8: the video handler returns success vacuously when no video element
exists; otherwise it mutes the video, seeks to `duration - 1.5` (or to `0`
when the duration is at most 2 seconds) once the element can play, starts
playback, and resolves `true` either then or at the ceiling timeout — it
never resolves with failure. -/
theorem video_handler_never_fails (video : Option VideoEl) :
    (handleVideoTask video).result = true
    ∧ (video = none → handleVideoTask video = ⟨true, false, none, false⟩)
    ∧ (∀ v, video = some v →
        (handleVideoTask video).muted = true
        ∧ ((2 ≤ v.readyState ∨ v.canplayFires = true) →
            (handleVideoTask video).seeked
              = some (if 2 < v.duration then v.duration - 3/2 else 0)
            ∧ (handleVideoTask video).playStarted = true
            ∧ (v.duration ≤ 2 → (handleVideoTask video).seeked = some 0))) := by
  cases video with
  | none =>
    refine ⟨rfl, fun _ => rfl, ?_⟩
    intro v h
    exact Option.noConfusion h
  | some v =>
    refine ⟨?_, fun h => Option.noConfusion h, ?_⟩
    · by_cases h : 2 ≤ v.readyState ∨ v.canplayFires = true <;>
        simp [handleVideoTask, h]
    · intro w hw
      cases hw
      constructor
      · by_cases h : 2 ≤ v.readyState ∨ v.canplayFires = true <;>
          simp [handleVideoTask, h]
      · intro h
        refine ⟨?_, ?_, ?_⟩
        · simp [handleVideoTask, h]
        · simp [handleVideoTask, h]
        · intro hd
          have hnd : ¬ (2 < v.duration) := not_lt.mpr hd
          simp [handleVideoTask, h, hnd]

/-- C8 witness: a 10-second playable video is seeked to 8.5 seconds, a
1-second one to 0. -/
theorem video_handler_never_fails_witness :
    (handleVideoTask (some ⟨10, 4, false⟩)).seeked = some (17/2)
    ∧ (handleVideoTask (some ⟨1, 0, true⟩)).seeked = some 0 := by
  have h1 := (video_handler_never_fails (some ⟨10, 4, false⟩)).2.2 ⟨10, 4, false⟩ rfl
  have h2 := (video_handler_never_fails (some ⟨1, 0, true⟩)).2.2 ⟨1, 0, true⟩ rfl
  constructor
  · have h := (h1.2 (Or.inl (by norm_num))).1
    rw [h]
    norm_num
  · exact (h2.2 (Or.inr rfl)).2.2 (by norm_num)

/-- C7: the flashcard handler terminates after at most 50 clicks; it runs
the full ceiling when a next button stays enabled (yielding success), stops
with success as soon as no enabled next button remains, and stops with
failure as soon as the run flag is observed off. -/
theorem flashcards_terminate_within_ceiling (env : VocabEnv) :
    (handleVocabularyTask env).2 ≤ 50
    ∧ (env.wrapperPresent = false → handleVocabularyTask env = (true, 0))
    ∧ (env.wrapperPresent = true → (∀ k, env.running k = true) →
        (∀ k, env.nextButton k = true) → handleVocabularyTask env = (true, 50))
    ∧ (env.wrapperPresent = true → ∀ j, j < 50 →
        (∀ i, i < j + 1 → env.running i = true) →
        (∀ i, i < j → env.nextButton i = true) →
        env.nextButton j = false → handleVocabularyTask env = (true, j))
    ∧ (env.wrapperPresent = true → ∀ j, j < 50 →
        (∀ i, i < j → env.running i = true) →
        (∀ i, i < j → env.nextButton i = true) →
        env.running j = false → handleVocabularyTask env = (false, j)) := by
  refine ⟨?_, ?_, ?_, ?_, ?_⟩
  · by_cases h : env.wrapperPresent = false
    · simp [handleVocabularyTask, h]
    · simp only [handleVocabularyTask, if_neg h]
      exact vocabLoop_clicks_le env 50 0
  · intro h
    simp [handleVocabularyTask, h]
  · intro h hr hb
    simp only [handleVocabularyTask, h]
    simp [vocabLoop_exhausts env hr hb 50 0]
  · intro h j hj hr hb hstop
    simp only [handleVocabularyTask, h]
    simp [vocabLoop_button_stop env j 50 0 hj (fun i hi => by simpa using hr i hi)
      (fun i hi => by simpa using hb i hi) (by simpa using hstop)]
  · intro h j hj hr hb hstop
    simp only [handleVocabularyTask, h]
    simp [vocabLoop_flag_stop env j 50 0 hj (fun i hi => by simpa using hr i hi)
      (fun i hi => by simpa using hb i hi) (by simpa using hstop)]

/-- Flashcard environment where the run flag stays on and a next button is
always enabled. -/
def constVocabEnv : VocabEnv := ⟨true, fun _ => true, fun _ => true⟩

/-- C7 witness: with an always-enabled next button the handler clicks
exactly 50 times and still reports success. -/
theorem flashcards_terminate_within_ceiling_witness :
    handleVocabularyTask constVocabEnv = (true, 50) :=
  (flashcards_terminate_within_ceiling constVocabEnv).2.2.1 rfl
    (fun _ => rfl) (fun _ => rfl)

/-- C5: a sequencer invocation with the reentrancy flag set, or with
automation off, is a strict no-op; otherwise every exit path — including
the exceptional one — leaves `isProcessing` cleared. -/
theorem main_reentrancy_guard (page : MainPage) (st : MainState) :
    (st.isProcessing = true ∨ st.isAutomationRunning = false →
      main page st = (st, []))
    ∧ (st.isProcessing = false → (main page st).1.isProcessing = false) := by
  constructor
  · intro h
    simp [main, h]
  · intro hp
    by_cases hr : st.isAutomationRunning = false
    · simp [main, hr, hp]
    · have hguard : ¬ (st.isProcessing = true ∨ st.isAutomationRunning = false) := by
        simp [hp, hr]
      simp only [main, if_neg hguard]
      cases hl : readMainLabel page with
      | none => simp [clearProcessing]
      | some name =>
        by_cases h1 : name.isEmpty
        · simp [h1, clearProcessing]
        · simp only [if_neg (by simp [h1] : ¬ (name.isEmpty = true))]
          by_cases h2 : name = st.lastProcessedTaskName ∧ page.href = st.lastUrl
          · simp [h2, clearProcessing]
          · simp only [if_neg h2]
            cases hf : UNIT_STRUCTURE.find? (fun t => strIncludes name t.id) with
            | none => simp [clearProcessing]
            | some taskData => simp [clearProcessing]

/-- A page and a state with the reentrancy flag held. -/
def busyGuardPage : MainPage := ⟨true, some "1-1 Setting the scene", "url", [], true, true⟩

/-- State with `isProcessing` set. -/
def busyGuardSt : MainState := ⟨true, true, "", "", ""⟩

/-- C5 witness: with the reentrancy flag set, the invocation is a strict
no-op. -/
theorem main_reentrancy_guard_witness :
    main busyGuardPage busyGuardSt = (busyGuardSt, []) :=
  (main_reentrancy_guard busyGuardPage busyGuardSt).1 (Or.inl rfl)

/-- C2: when the read label equals the persisted `lastProcessedTaskName`
and the URL equals the persisted `lastUrl`, the sequencer performs no task
processing (no handler run, no tab click, no write, no submit) and instead
runs the forced navigation to the next main task. -/
theorem stall_forces_navigation (page : MainPage) (st : MainState) (name : String)
    (hp : st.isProcessing = false) (hr : st.isAutomationRunning = true)
    (hl : readMainLabel page = some name) (hne : name.isEmpty = false)
    (h1 : name = st.lastProcessedTaskName) (h2 : page.href = st.lastUrl) :
    main page st =
      (clearProcessing (navigateToNextMainTask page { st with isProcessing := true }).1,
       Action.warnStuck ::
         (navigateToNextMainTask page { st with isProcessing := true }).2)
    ∧ ∀ a ∈ (main page st).2, isProcessingAction a = false := by
  have hguard : ¬ (st.isProcessing = true ∨ st.isAutomationRunning = false) := by
    simp [hp, hr]
  have hmain : main page st =
      (clearProcessing (navigateToNextMainTask page { st with isProcessing := true }).1,
       Action.warnStuck ::
         (navigateToNextMainTask page { st with isProcessing := true }).2) := by
    have hne' : ¬ (name.isEmpty = true) := by simp [hne]
    simp only [main, if_neg hguard, hl, if_neg hne',
      if_pos (⟨h1, h2⟩ : name = st.lastProcessedTaskName ∧ page.href = st.lastUrl)]
  refine ⟨hmain, ?_⟩
  rw [hmain]
  intro a ha
  by_cases hm : page.menuFound
  · by_cases hn : page.nextTaskExists
    · simp [navigateToNextMainTask, hm, hn] at ha
      rcases ha with rfl | rfl <;> rfl
    · simp [navigateToNextMainTask, hm, hn] at ha
      rcases ha with rfl | rfl <;> rfl
  · simp [navigateToNextMainTask, hm] at ha
    rcases ha with rfl | rfl <;> rfl

/-- A stalled state: label and URL already persisted from the previous run. -/
def stallSt : MainState := ⟨true, false, "", "1-1 Setting the scene", "url"⟩

/-- The page seen on the stalled run. -/
def stallPage : MainPage := ⟨true, some "1-1 Setting the scene", "url", [], true, true⟩

/-- C2 witness: a stalled invocation emits only the warning and the forced
navigation click. -/
theorem stall_forces_navigation_witness :
    main stallPage stallSt = (stallSt, [Action.warnStuck, Action.clickNextMainTask]) := by
  have h := (stall_forces_navigation stallPage stallSt "1-1 Setting the scene"
    rfl rfl rfl (by decide) rfl rfl).1
  rw [h]
  decide

/-- A page whose main-task label cannot be read. -/
def noLabelPage : MainPage := ⟨false, none, "url", [], true, true⟩

/-- A running, idle state before the failing invocation. -/
def runningSt : MainState := ⟨true, false, "k", "t", "u"⟩

/-- C3 counterexample: automation is running, the label is unreadable, and
already the FIRST such failure disables automation — there is no
three-failure tolerance in the code. -/
theorem first_unreadable_label_already_disables :
    runningSt.isAutomationRunning = true
    ∧ (main noLabelPage runningSt).1.isAutomationRunning = false
    ∧ (main noLabelPage runningSt).2 = [Action.logFatal] := by decide

/-- C3 amended: when the main-task label cannot be read (element missing or
empty title), the sequencer treats it as fatal for the invocation — it logs,
runs nothing else, and disables automation immediately on this first
failure. -/
theorem unreadable_label_disables_automation (page : MainPage) (st : MainState)
    (hp : st.isProcessing = false) (hr : st.isAutomationRunning = true)
    (hl : readMainLabel page = none ∨ readMainLabel page = some "") :
    main page st =
      ({ st with isAutomationRunning := false, isProcessing := false },
       [Action.logFatal]) := by
  have hguard : ¬ (st.isProcessing = true ∨ st.isAutomationRunning = false) := by
    simp [hp, hr]
  rcases hl with hl | hl
  · simp only [main, if_neg hguard, hl]
    simp [toggleAutomation, clearProcessing, hr]
  · simp only [main, if_neg hguard, hl,
      if_pos (show ("" : String).isEmpty = true by decide)]
    simp [toggleAutomation, clearProcessing, hr]

/-- C3 witness for the amended claim: the concrete failing invocation
disables automation and clears the reentrancy flag. -/
theorem unreadable_label_disables_automation_witness :
    main noLabelPage runningSt = (⟨false, false, "k", "t", "u"⟩, [Action.logFatal]) :=
  (unreadable_label_disables_automation noLabelPage runningSt rfl rfl
    (Or.inl rfl)).trans (by decide)

theorem processChildren_append (tabs : List (Option String))
    (xs ys : List SubTaskConfig) :
    processChildren tabs (xs ++ ys)
      = processChildren tabs xs ++ processChildren tabs ys := by
  induction xs with
  | nil => simp [processChildren]
  | cons c rest ih =>
    simp only [List.cons_append, processChildren]
    cases h : tabs.find? (fun t => hasTitle t c.name) with
    | none => simp [ih]
    | some _ => simp [ih]

theorem runHandler_mem_processChildren (tabs : List (Option String))
    (cs : List SubTaskConfig) (d : SubTaskConfig) (hd : d ∈ cs)
    (hpres : (tabs.find? (fun t => hasTitle t d.name)).isSome) :
    Action.runHandler d.method d.name ∈ processChildren tabs cs := by
  induction cs with
  | nil => cases hd
  | cons c rest ih =>
    rcases List.mem_cons.mp hd with rfl | hd
    · cases h : tabs.find? (fun t => hasTitle t d.name) with
      | none => exact absurd hpres (by simp [h])
      | some _ => simp [processChildren, h]
    · cases h : tabs.find? (fun t => hasTitle t c.name) with
      | none =>
        simp only [processChildren, h]
        exact List.mem_cons_of_mem _ (ih hd)
      | some _ =>
        simp only [processChildren, h]
        exact List.mem_cons_of_mem _ (List.mem_cons_of_mem _
          (List.mem_append_right _ (ih hd)))

/-- C9: during a composite task, a declared sub-task whose tab is missing
contributes exactly a warning — the loop is not aborted, every other
declared sub-task whose tab is present still has its handler run, and the
sequencer's trace embeds the whole composite loop. -/
theorem missing_tab_skips_only_that_subtask (page : MainPage) (st : MainState)
    (name : String) (taskData : TaskMapEntry) (pre : List SubTaskConfig)
    (c : SubTaskConfig) (rest : List SubTaskConfig)
    (hp : st.isProcessing = false) (hr : st.isAutomationRunning = true)
    (hl : readMainLabel page = some name) (hne : name.isEmpty = false)
    (hstall : ¬ (name = st.lastProcessedTaskName ∧ page.href = st.lastUrl))
    (hfind : UNIT_STRUCTURE.find? (fun t => strIncludes name t.id) = some taskData)
    (htyp : taskData.typ = "composite")
    (hch : taskData.children = some (pre ++ c :: rest))
    (hmiss : page.subTaskTabTitles.find? (fun t => hasTitle t c.name) = none) :
    processChildren page.subTaskTabTitles (pre ++ c :: rest)
      = processChildren page.subTaskTabTitles pre
        ++ Action.warnMissingTab c.name :: processChildren page.subTaskTabTitles rest
    ∧ (∀ d, d ∈ pre ++ rest →
        (page.subTaskTabTitles.find? (fun t => hasTitle t d.name)).isSome →
        Action.runHandler d.method d.name
          ∈ processChildren page.subTaskTabTitles (pre ++ c :: rest))
    ∧ ∃ tail, (main page st).2
        = processChildren page.subTaskTabTitles (pre ++ c :: rest) ++ tail := by
  refine ⟨?_, ?_, ?_⟩
  · rw [processChildren_append]
    simp [processChildren, hmiss]
  · intro d hd hpres
    rcases List.mem_append.mp hd with hd | hd
    · exact runHandler_mem_processChildren _ _ _
        (List.mem_append_left _ hd) hpres
    · exact runHandler_mem_processChildren _ _ _
        (List.mem_append_right _ (List.mem_cons_of_mem _ hd)) hpres
  · have hguard : ¬ (st.isProcessing = true ∨ st.isAutomationRunning = false) := by
      simp [hp, hr]
    have hne' : ¬ (name.isEmpty = true) := by simp [hne]
    have hts : ¬ (taskData.typ = "standalone") := by
      rw [htyp]; decide
    simp only [main, if_neg hguard, hl, if_neg hne', if_neg hstall, hfind,
      if_neg hts, if_pos htyp, hch]
    exact ⟨_, rfl⟩

/-- The composite entry 1-3 with its middle sub-task's tab missing. -/
def missingTabPage : MainPage :=
  ⟨true, some "1-3 iExplore 1: Reviewing after class", "url",
   [some "Gems of the language", some "Application"], true, true⟩

/-- A fresh running state for the composite-skip scenario. -/
def missingTabSt : MainState := ⟨true, false, "", "", ""⟩

/-- C9 witness: entry 1-3's middle sub-task tab is absent; the loop emits
its warning in place and still clicks and handles the first and third
sub-tasks. -/
theorem missing_tab_skips_only_that_subtask_witness :
    processChildren missingTabPage.subTaskTabTitles
        ([⟨"Gems of the language", "video", false⟩] ++
          ⟨"Repeating after me", "skip", false⟩ :: [⟨"Application", "quiz", true⟩])
      = processChildren missingTabPage.subTaskTabTitles
          [⟨"Gems of the language", "video", false⟩]
        ++ Action.warnMissingTab "Repeating after me"
          :: processChildren missingTabPage.subTaskTabTitles
               [⟨"Application", "quiz", true⟩]
    ∧ Action.runHandler "quiz" "Application"
        ∈ processChildren missingTabPage.subTaskTabTitles
            ([⟨"Gems of the language", "video", false⟩] ++
              ⟨"Repeating after me", "skip", false⟩ :: [⟨"Application", "quiz", true⟩]) := by
  have h := missing_tab_skips_only_that_subtask missingTabPage missingTabSt
    "1-3 iExplore 1: Reviewing after class"
    ⟨"1-3", "iExplore 1: Reviewing after class", "composite", none,
      some [⟨"Gems of the language", "video", false⟩,
            ⟨"Repeating after me", "skip", false⟩,
            ⟨"Application", "quiz", true⟩], false⟩
    [⟨"Gems of the language", "video", false⟩]
    ⟨"Repeating after me", "skip", false⟩
    [⟨"Application", "quiz", true⟩]
    rfl rfl rfl (by decide) (by decide) (by decide) rfl rfl (by decide)
  exact ⟨h.1, h.2.1 ⟨"Application", "quiz", true⟩ (by decide) (by decide)⟩

/-- C10: with a readable, unit-bearing main-task label but no active
sub-task tab and no test-part-name element, the context resolver does not
fail — it defaults the sub-task name to `"Part I"` and performs the bank
lookup under that key, so a `"Part I"`-keyed answer is returned for a view
whose actual sub-task was never identified. -/
theorem missing_subtask_defaults_to_part_one (bank : Bank) (last : String)
    (menu : MenuDom) (mtc a uid : String)
    (hm : currentMainTaskContent menu = some mtc) (hne : mtc.isEmpty = false)
    (huid : findUnitId mtc.data = some uid)
    (htab : menu.activeTabPresent = false)
    (hpart : menu.testPartName = none)
    (hded : last ≠ mtc ++ "-" ++ "Part I")
    (hbank : bankLookup bank ("Unit " ++ uid) (resolveMainTaskKey mtc) "Part I"
      = some a)
    (hane : a.isEmpty = false) :
    resolveSubTaskName menu = "Part I"
    ∧ getPageContextAndAnswers bank last menu = .found a mtc "Part I" := by
  have hempty : ("" : String).isEmpty = true := by decide
  have hsub : resolveSubTaskName menu = "Part I" := by
    simp [resolveSubTaskName, htab, hpart, hempty]
  refine ⟨hsub, ?_⟩
  have hne' : ¬ (mtc.isEmpty = true) := by simp [hne]
  simp only [getPageContextAndAnswers, resolveContext, hm, if_neg hne', huid,
    hsub, if_neg hded, hbank]
  simp [hane]

/-- The unit-test page with no tab and no part-name element. -/
def partOneMenu : MenuDom := ⟨true, some "1-7 Unit test", none, false, none, "", none⟩

/-- A bank holding an answer keyed `"Part I"` for the unit test. -/
def partOneBank : Bank := [("Unit 1", [("Unit test", [("Part I", "A B C")])])]

/-- C10 witness: the unidentified sub-task resolves to `"Part I"` and the
`"Part I"`-keyed answer is found. -/
theorem missing_subtask_defaults_to_part_one_witness :
    resolveSubTaskName partOneMenu = "Part I"
    ∧ getPageContextAndAnswers partOneBank "" partOneMenu
        = .found "A B C" "1-7 Unit test" "Part I" :=
  missing_subtask_defaults_to_part_one partOneBank "" partOneMenu
    "1-7 Unit test" "A B C" "1" rfl (by decide) (by decide) rfl rfl
    (by decide) (by decide) (by decide)

/-- C4: the answering engine is idempotent on an unchanged rendered view —
a second invocation with the same menu context, starting from the first
invocation's resulting page and dedup key, performs no click, no write and
no event, and leaves page and dedup key unchanged.  (If anything was
answered, the dedup key short-circuits the second run; if nothing was, the
first run already changed nothing.) -/
theorem doAnswer_idempotent (bank : Bank) (last : String) (menu : MenuDom)
    (dom : PageDom) :
    doAnswer bank (doAnswer bank last menu dom).lastAnsweredSubTask menu
        (doAnswer bank last menu dom).dom
      = ⟨(doAnswer bank last menu dom).dom,
         (doAnswer bank last menu dom).lastAnsweredSubTask, []⟩ := by
  by_cases hb : bank.isEmpty
  · simp [doAnswer, hb]
  · cases hctx : getPageContextAndAnswers bank last menu with
    | noCtx => simp [doAnswer, hb, hctx]
    | answered => simp [doAnswer, hb, hctx]
    | found a mtc sub =>
      have hans := context_answered_after_key bank last menu a mtc sub hctx
      by_cases hcq : dom.choiceQuestions ≠ [] ∧ matchesChoicePattern (jsTrimStr a) = true
      · by_cases hA : choiceClicks dom.choiceQuestions (answerLetters a) 0 = []
        · have h1 : doAnswer bank last menu dom = ⟨dom, last, []⟩ := by
            simp [doAnswer, hb, hctx, hcq, hA]
          rw [h1]
          exact h1
        · have h1 : doAnswer bank last menu dom
              = ⟨dom, mtc ++ "-" ++ sub,
                 choiceClicks dom.choiceQuestions (answerLetters a) 0⟩ := by
            simp [doAnswer, hb, hctx, hcq, hA]
          rw [h1]
          simp [doAnswer, hb, hans]
      · by_cases ht : dom.textInputs ≠ []
        · by_cases hA : (fillLoop Action.setInput Action.inputEvent dom.textInputs
              (processAnswerLines a) 0).2 = []
          · have hv := fillLoop_actions_nil Action.setInput Action.inputEvent
              dom.textInputs (processAnswerLines a) 0 hA
            have h1 : doAnswer bank last menu dom = ⟨dom, last, []⟩ := by
              obtain ⟨cqs, tis, fibs⟩ := dom
              simp only [doAnswer] at hv ⊢
              simp [hb, hctx, hcq, ht, hA, hv]
            rw [h1]
            exact h1
          · have h1 : doAnswer bank last menu dom
                = ⟨{ dom with textInputs :=
                      (fillLoop Action.setInput Action.inputEvent dom.textInputs
                        (processAnswerLines a) 0).1 },
                   mtc ++ "-" ++ sub,
                   (fillLoop Action.setInput Action.inputEvent dom.textInputs
                     (processAnswerLines a) 0).2⟩ := by
              simp [doAnswer, hb, hctx, hcq, ht, hA]
            rw [h1]
            simp [doAnswer, hb, hans]
        · by_cases hf : dom.fillInBlanks ≠ []
          · by_cases hA : (fillLoop Action.setBlank Action.blankEvent dom.fillInBlanks
                (processAnswerLines a) 0).2 = []
            · have hv := fillLoop_actions_nil Action.setBlank Action.blankEvent
                dom.fillInBlanks (processAnswerLines a) 0 hA
              have h1 : doAnswer bank last menu dom = ⟨dom, last, []⟩ := by
                obtain ⟨cqs, tis, fibs⟩ := dom
                simp only [doAnswer] at hv ⊢
                simp [hb, hctx, hcq, ht, hf, hA, hv]
              rw [h1]
              exact h1
            · have h1 : doAnswer bank last menu dom
                  = ⟨{ dom with fillInBlanks :=
                        (fillLoop Action.setBlank Action.blankEvent dom.fillInBlanks
                          (processAnswerLines a) 0).1 },
                     mtc ++ "-" ++ sub,
                     (fillLoop Action.setBlank Action.blankEvent dom.fillInBlanks
                       (processAnswerLines a) 0).2⟩ := by
                simp [doAnswer, hb, hctx, hcq, ht, hf, hA]
              rw [h1]
              simp [doAnswer, hb, hans]
          · have h1 : doAnswer bank last menu dom = ⟨dom, last, []⟩ := by
              simp [doAnswer, hb, hctx, hcq, ht, hf]
            rw [h1]
            exact h1

/-- Menu context resolving to task 1-1 with active sub-task tab `"Sub"`. -/
def lettersMenu : MenuDom :=
  ⟨true, some "1-1 Setting the scene", none, true, some "Sub", "", none⟩

/-- Bank holding the single-letter answer `"A"` for that view. -/
def lettersBank : Bank :=
  [("Unit 1", [("Setting the scene", [("Sub", "A")])])]

/-- A page with no choice-question blocks but one empty text input. -/
def noChoiceDom : PageDom := ⟨[], [""], []⟩

/-- C1 counterexample: the answer `"A"` matches the all-caps choice pattern,
yet with no choice-question block on the page the engine dispatches it to
the free-text branch, writing it into the text input. -/
theorem letters_answer_filled_as_free_text :
    matchesChoicePattern (jsTrimStr "A") = true
    ∧ (doAnswer lettersBank "" lettersMenu noChoiceDom).actions
        = [Action.setInput 0 "A", Action.inputEvent 0]
    ∧ (doAnswer lettersBank "" lettersMenu noChoiceDom).dom.textInputs = ["A"] := by
  decide

/-- C1 amended: when at least one choice-question block is present and the
answer matches the all-caps pattern, the engine treats it as choice-type —
its trace is exactly the positional clicks, the page inputs are untouched,
no free-text action occurs, and every click at block `q` targets an
unselected option of block `q` whose trimmed caption equals the `q`-th
answer letter. -/
theorem letters_answer_clicks_choices_positionally (bank : Bank) (last : String)
    (menu : MenuDom) (dom : PageDom) (a mtc sub : String)
    (hq : dom.choiceQuestions ≠ [])
    (hctx : getPageContextAndAnswers bank last menu = .found a mtc sub)
    (hpat : matchesChoicePattern (jsTrimStr a) = true) :
    (doAnswer bank last menu dom).actions
      = choiceClicks dom.choiceQuestions (answerLetters a) 0
    ∧ (doAnswer bank last menu dom).dom = dom
    ∧ (∀ act, act ∈ (doAnswer bank last menu dom).actions →
        isFreeTextAction act = false)
    ∧ (∀ q j, Action.clickOption q j ∈ (doAnswer bank last menu dom).actions →
        ∃ qq c opt, dom.choiceQuestions.get? q = some qq
          ∧ (answerLetters a).get? q = some c
          ∧ qq.options.get? j = some opt
          ∧ optionMatches opt c = true) := by
  have hb := bank_nonempty_of_found bank last menu a mtc sub hctx
  have hcq : dom.choiceQuestions ≠ [] ∧ matchesChoicePattern (jsTrimStr a) = true :=
    ⟨hq, hpat⟩
  have hact : (doAnswer bank last menu dom).actions
      = choiceClicks dom.choiceQuestions (answerLetters a) 0 := by
    simp [doAnswer, hb, hctx, hcq]
  have hdom : (doAnswer bank last menu dom).dom = dom := by
    simp [doAnswer, hb, hctx, hcq]
  refine ⟨hact, hdom, ?_, ?_⟩
  · intro act hmem
    rw [hact] at hmem
    obtain ⟨q, j, rfl⟩ := choiceClicks_all_clicks dom.choiceQuestions
      (answerLetters a) 0 act hmem
    rfl
  · intro q j hmem
    rw [hact] at hmem
    obtain ⟨k, qq, c, hk, h1, h2, h3⟩ := clickOption_mem_choiceClicks
      dom.choiceQuestions (answerLetters a) 0 q j hmem
    obtain ⟨opt, hopt, hmatch⟩ := findFirstIndex_some _ qq.options j h3
    have hk0 : q = k := by omega
    subst hk0
    exact ⟨qq, c, opt, h1, h2, hopt, hmatch⟩

/-- A page with one choice-question block whose options are captioned
`"A"` and `"B"`. -/
def choiceDom : PageDom :=
  ⟨[⟨[⟨some "A", false⟩, ⟨some "B", false⟩]⟩], [], []⟩

/-- C1 amended witness: with a choice block present, the answer `"A"`
produces exactly the click on option 0 of block 0. -/
theorem letters_answer_clicks_choices_positionally_witness :
    (doAnswer lettersBank "" lettersMenu choiceDom).actions
      = [Action.clickOption 0 0] := by
  have h := (letters_answer_clicks_choices_positionally lettersBank "" lettersMenu
    choiceDom "A" "1-1 Setting the scene" "Sub" (by decide) (by decide) (by decide)).1
  rw [h]
  decide

/-- C6: a non-choice-pattern answer applied to a page with text inputs is
split on newlines, stripped of leading ordinal markers, and assigned
positionally — the i-th processed line goes into the i-th input exactly when
that input is empty, with a synthetic input event dispatched for it, while
non-empty inputs are left untouched; leading `<digits>.` and `<digits>)`
prefixes are stripped. -/
theorem newline_answer_fills_text_inputs (bank : Bank) (last : String)
    (menu : MenuDom) (dom : PageDom) (a mtc sub : String)
    (hctx : getPageContextAndAnswers bank last menu = .found a mtc sub)
    (hnl : '\n' ∈ a.data)
    (hpat : matchesChoicePattern (jsTrimStr a) = false)
    (ht : dom.textInputs ≠ []) :
    (doAnswer bank last menu dom).actions
      = (fillLoop Action.setInput Action.inputEvent dom.textInputs
          (processAnswerLines a) 0).2
    ∧ (doAnswer bank last menu dom).dom.textInputs
      = (fillLoop Action.setInput Action.inputEvent dom.textInputs
          (processAnswerLines a) 0).1
    ∧ (∀ i l, dom.textInputs.get? i = some ""
        → (processAnswerLines a).get? i = some l →
        (doAnswer bank last menu dom).dom.textInputs.get? i = some l
        ∧ Action.setInput i l ∈ (doAnswer bank last menu dom).actions
        ∧ Action.inputEvent i ∈ (doAnswer bank last menu dom).actions)
    ∧ (∀ i v, dom.textInputs.get? i = some v → v.isEmpty = false →
        (doAnswer bank last menu dom).dom.textInputs.get? i = some v)
    ∧ (∀ ds rest, ds ≠ [] → ds.all Char.isDigit = true → rest.head? ≠ some ')' →
        stripOrdinal (ds ++ '.' :: rest) = rest.dropWhile isJsSpace)
    ∧ (∀ ds rest, ds ≠ [] → ds.all Char.isDigit = true →
        stripOrdinal (ds ++ ')' :: rest) = rest.dropWhile isJsSpace) := by
  have hb := bank_nonempty_of_found bank last menu a mtc sub hctx
  have hcq : ¬ (dom.choiceQuestions ≠ [] ∧ matchesChoicePattern (jsTrimStr a) = true) := by
    intro hcontra
    rw [hpat] at hcontra
    exact absurd hcontra.2 (by simp)
  have hact : (doAnswer bank last menu dom).actions
      = (fillLoop Action.setInput Action.inputEvent dom.textInputs
          (processAnswerLines a) 0).2 := by
    by_cases hA : (fillLoop Action.setInput Action.inputEvent dom.textInputs
        (processAnswerLines a) 0).2 = [] <;>
      simp [doAnswer, hb, hctx, hcq, ht, hA]
  have hdom : (doAnswer bank last menu dom).dom.textInputs
      = (fillLoop Action.setInput Action.inputEvent dom.textInputs
          (processAnswerLines a) 0).1 := by
    by_cases hA : (fillLoop Action.setInput Action.inputEvent dom.textInputs
        (processAnswerLines a) 0).2 = [] <;>
      simp [doAnswer, hb, hctx, hcq, ht, hA]
  refine ⟨hact, hdom, ?_, ?_, ?_, ?_⟩
  · intro i l hvi hli
    have h := fillLoop_get_empty Action.setInput Action.inputEvent dom.textInputs
      (processAnswerLines a) 0 i l hvi hli
    rw [hdom, hact]
    exact ⟨h.1, by simpa using h.2.1, by simpa using h.2.2⟩
  · intro i v hvi hne
    rw [hdom]
    exact fillLoop_get_nonempty Action.setInput Action.inputEvent dom.textInputs
      (processAnswerLines a) 0 i v hvi hne
  · exact stripOrdinal_dot
  · exact stripOrdinal_paren

/-- Menu context for the free-text scenario. -/
def textMenu : MenuDom :=
  ⟨true, some "1-3 iExplore 1: Reviewing after class", none, true,
   some "Application", "", none⟩

/-- Bank holding a two-line ordinal-prefixed answer for that view. -/
def textBank : Bank :=
  [("Unit 1", [("iExplore 1: Reviewing after class",
    [("Application", "1. foo\n2) bar")])])]

/-- A page with one empty and one already-filled text input. -/
def textDom : PageDom := ⟨[], ["", "x"], []⟩

/-- C6 witness: the first line (stripped of `1.`) fills the empty input
with its input event, the non-empty input keeps `"x"` and the second line
is not written anywhere. -/
theorem newline_answer_fills_text_inputs_witness :
    (doAnswer textBank "" textMenu textDom).actions
      = [Action.setInput 0 "foo", Action.inputEvent 0]
    ∧ (doAnswer textBank "" textMenu textDom).dom.textInputs = ["foo", "x"] := by
  have h := newline_answer_fills_text_inputs textBank "" textMenu textDom
    "1. foo\n2) bar" "1-3 iExplore 1: Reviewing after class" "Application"
    (by decide) (by decide) (by decide) (by decide)
  refine ⟨?_, ?_⟩
  · rw [h.1]
    decide
  · rw [h.2.1]
    decide

end UCampus
